import Mathlib

/-!
Shallow embedding of the GhostGuard backend (src/index.js) and verification
of its specification claims.

Modelling conventions:
- JS timestamps (`Date.now()`, ISO strings) are `Int` milliseconds.
- JS `null`/`undefined` become `Option`; JS string truthiness (`""` falsy)
  is modelled explicitly by `jsTruthy` / `jsOrS`.
- The Supabase record store is modelled as in-process lists of records;
  `.single()` lookups on unique keys become `List.find?`, `update ... eq`
  becomes `List.map` guarded on the filter column.
- Per-tenant maps (`actionQueue`, `serverLogs`, `serverState`,
  `livePlayersByLicense`) are functions `String → _` updated pointwise.
-/

namespace GhostGuard

/-- JS truthiness of an optional string: `null`/`undefined` and `""` are falsy. -/
def jsTruthy (o : Option String) : Bool :=
  match o with
  | none => false
  | some s => s ≠ ""

/-- JS `a || b` for optional strings (falsy left operand selects the default). -/
def jsOrS (o : Option String) (d : String) : String :=
  match o with
  | none => d
  | some s => if s = "" then d else s

/-! ## Command queue (`actionQueue`, `pushAction`, GET /api/server/actions) -/

/-- Function `pushAction` from src/index.js: append to the tail; if the resulting
length exceeds 200, `splice(0, 50)` removes the 50 oldest entries. The queue
element type is generic because the JS queue is untyped. -/
def pushAction {α : Type} (q : List α) (a : α) : List α :=
  let q' := q ++ [a]
  if q'.length > 200 then q'.drop 50 else q'

/-- Push a whole sequence of commands in order. -/
def pushAll {α : Type} (q : List α) (cmds : List α) : List α :=
  cmds.foldl pushAction q

/-- GET /api/server/actions/:license — returns the tenant's whole queue and
resets it to empty (`actionQueue[license_key] = []`). -/
def drainActions {α : Type} (queues : String → List α) (k : String) :
    List α × (String → List α) :=
  (queues k, fun k' => if k' = k then [] else queues k')

/-! ## Log ring buffer (`serverLogs`, `pushServerLog`) -/

/-- Function `pushServerLog` from src/index.js: `unshift` (prepend) the item, then if
the length exceeds 300, `length = 300` truncates the tail. -/
def pushServerLog {α : Type} (buf : List α) (item : α) : List α :=
  let b := item :: buf
  if b.length > 300 then b.take 300 else b

/-- Ingest a sequence of log events in order. -/
def ingestAll {α : Type} (buf : List α) (items : List α) : List α :=
  items.foldl pushServerLog buf

/-! ## License records and POST /api/license/verify -/

structure License where
  id : Nat
  license_key : String
  status : String
  expires_at : Option Int
  hwid : Option String
  last_seen : Option Int
deriving Repr, DecidableEq

structure VerifyResult where
  valid : Bool
  reason : Option String
deriving Repr, DecidableEq

/-- Lookup `supabase.from("licenses").select("*").eq("license_key", k).single()`
on a store with unique license keys. -/
def findLicense (st : List License) (k : String) : Option License :=
  st.find? (fun l => l.license_key == k)

/-- Store update `update({ hwid }).eq("id", licId)`. -/
def bindHwid (st : List License) (licId : Nat) (h : String) : List License :=
  st.map (fun l => if l.id = licId then { l with hwid := some h } else l)

/-- Store update `update({ last_seen: ... }).eq("id", licId)`. -/
def touchLastSeen (st : List License) (licId : Nat) (now : Int) : List License :=
  st.map (fun l => if l.id = licId then { l with last_seen := some now } else l)

/-- Expiry test `lic.expires_at && new Date(lic.expires_at) < new Date()` (stored ISO
strings are truthy, so only `null` is falsy; timestamps are Int ms). -/
def expiredAt (expires_at : Option Int) (now : Int) : Bool :=
  match expires_at with
  | some e => decide (e < now)
  | none => false

/-- POST /api/license/verify: status, expiry, hwid-bind/mismatch checks plus
the `last_seen` touch, returning the result and the updated license store.
The HMAC assertion payload/signature of the success response is omitted:
no claim refers to it. -/
def verify (st : List License) (now : Int) (license_key hwid : Option String) :
    VerifyResult × List License :=
  if jsTruthy license_key = false then
    ({ valid := false, reason := some "MISSING_KEY" }, st)
  else
    match findLicense st (license_key.getD "") with
    | none => ({ valid := false, reason := some "NOT_FOUND" }, st)
    | some lic =>
      if lic.status ≠ "ACTIVE" then
        ({ valid := false, reason := some lic.status }, st)
      else if expiredAt lic.expires_at now then
        ({ valid := false, reason := some "EXPIRED" }, st)
      else if jsTruthy lic.hwid then
        if jsTruthy hwid ∧ lic.hwid ≠ hwid then
          ({ valid := false, reason := some "HWID_MISMATCH" }, st)
        else
          ({ valid := true, reason := none }, touchLastSeen st lic.id now)
      else
        let st1 := if jsTruthy hwid then bindHwid st lic.id (hwid.getD "") else st
        ({ valid := true, reason := none }, touchLastSeen st1 lic.id now)

/-! ## License issuance (`generateLicenseKey`, POST /admin/create-license) -/

def hexDigitsUpper : List Char :=
  ['0', '1', '2', '3', '4', '5', '6', '7', '8', '9', 'A', 'B', 'C', 'D', 'E', 'F']

def hexDigitUpper (n : Nat) : Char := hexDigitsUpper.getD (n % 16) '0'

/-- Hex group `crypto.randomBytes(2).toString("hex").toUpperCase()`: two random bytes,
i.e. a number `n < 65536`, printed as four uppercase hex digits. -/
def toHex4 (n : Nat) : String :=
  String.mk [hexDigitUpper (n / 4096), hexDigitUpper (n / 256), hexDigitUpper (n / 16),
    hexDigitUpper n]

/-- Function `generateLicenseKey` from src/index.js, with the two 2-byte random draws
passed explicitly. -/
def generateLicenseKey (b1 b2 : Nat) : String :=
  "GG-" ++ toHex4 b1 ++ "-" ++ toHex4 b2

/-- POST /admin/create-license: the license record inserted for a requested
validity of `days` days (`d.setDate(d.getDate() + days)` modelled as adding
whole day-milliseconds). -/
def createLicense (now : Int) (days : Int) (b1 b2 : Nat) : License :=
  { id := 0
    license_key := generateLicenseKey b1 b2
    status := "ACTIVE"
    expires_at := if days > 0 then some (now + days * 86400000) else none
    hwid := none
    last_seen := none }

/-! ## Ban expiry computation (`computeExpiresAt`) -/

def digitsToNat (ds : List Char) : Nat :=
  ds.foldl (fun a c => a * 10 + (c.toNat - 48)) 0

def isWsp (c : Char) : Bool := c = ' ' ∨ c = '\t' ∨ c = '\n' ∨ c = '\r'

/-- Normalization `.trim().toLowerCase()` of the JS duration string, written on the
character list so it reduces. -/
def jsTrimLower (s : String) : String :=
  String.mk ((((s.data.dropWhile isWsp).reverse.dropWhile isWsp).reverse).map Char.toLower)

/-- The `/^(\d+)([mhd])$/` match on the normalized duration string. -/
def parseDurationSpec (s : String) : Option (Nat × Char) :=
  match s.data.getLast? with
  | none => none
  | some u =>
    if (u = 'm' ∨ u = 'h' ∨ u = 'd') ∧ s.data.dropLast ≠ [] ∧ s.data.dropLast.all Char.isDigit
    then some (digitsToNat s.data.dropLast, u)
    else none

def unitMs (u : Char) : Nat :=
  if u = 'm' then 60000 else if u = 'h' then 3600000 else 86400000

/-- The duration-based branch of `computeExpiresAt`:
`String(duration || "P").trim().toLowerCase()`, the permanent keywords,
the `<digits><mhd>` pattern, and the silent `null` fallback. -/
def durationExpiry (duration : Option String) (now : Int) : Option Int :=
  let raw := jsTrimLower (jsOrS duration "P")
  if raw = "p" ∨ raw = "perm" ∨ raw = "permanent" then none
  else
    match parseDurationSpec raw with
    | none => none
    | some au => some (now + (au.1 * unitMs au.2 : Nat))

/-- Function `computeExpiresAt(duration, explicitExpiresAt)` from src/index.js.
`if (explicitExpiresAt)` is a JS truthiness test, so a numeric explicit
expiry of `0` is falsy and falls through to duration parsing. -/
def computeExpiresAt (duration : Option String) (explicitExpiresAt : Option Int)
    (now : Int) : Option Int :=
  match explicitExpiresAt with
  | some e => if e ≠ 0 then some e else durationExpiry duration now
  | none => durationExpiry duration now

/-! ## Identity resolution (`resolvePanelIdentity`) -/

structure Customer where
  id : String
  username : String
  password : String
  license_key : String
deriving Repr, DecidableEq

structure PanelAdmin where
  id : String
  license_key : String
  name : String
  role : String
  active : Bool
  token_hash : String
deriving Repr, DecidableEq

structure Identity where
  kind : String
  license_key : String
deriving Repr, DecidableEq

/-- Function `resolvePanelIdentity` from src/index.js. The one-way digest (`sha256`)
is passed as a function parameter `hash`; the customers and panel_admins
collections have unique `id` / `token_hash` columns, so `.single()` becomes
`List.find?`. -/
def resolvePanelIdentity (hash : String → String) (customers : List Customer)
    (admins : List PanelAdmin) (token : Option String) : Option Identity :=
  if jsTruthy token = false then none
  else
    let t := token.getD ""
    match customers.find? (fun c => c.id == t) with
    | some user => some { kind := "customer", license_key := user.license_key }
    | none =>
      let token_hash := hash t
      match admins.find? (fun a => a.token_hash == token_hash && a.active) with
      | some admin => some { kind := "admin", license_key := admin.license_key }
      | none => none

/-! ## Liveness (POST /api/server/heartbeat) -/

structure Player where
  id : String
  name : String
  ping : Int
deriving Repr, DecidableEq

/-- The JSON value shapes a `players` field can take. -/
inductive JsVal where
  | nullv
  | str (s : String)
  | num (n : Int)
  | boolv (b : Bool)
  | arr (xs : List Player)
  | obj
deriving Repr, DecidableEq

structure SrvRec where
  last_seen : Int
  players : Nat
  uptime : Int
  version : Option String
deriving Repr, DecidableEq

structure LiveState where
  serverState : String → Option SrvRec
  livePlayers : String → List Player

structure ApiResult where
  success : Bool
  error : Option String
deriving Repr, DecidableEq

/-- POST /api/server/heartbeat. `Array.isArray(players) ? players : []`
replaces the roster; the `server_status` upsert is best-effort and does not
affect the result, so it is not part of the in-memory state transition. -/
def heartbeat (st : LiveState) (now : Int) (license_key : Option String)
    (players : JsVal) (version : Option String) (uptime : Option Int) :
    ApiResult × LiveState :=
  if jsTruthy license_key = false then
    ({ success := false, error := some "MISSING_LICENSE" }, st)
  else
    let k := license_key.getD ""
    let roster := match players with | JsVal.arr xs => xs | _ => []
    let st' : LiveState :=
      { serverState := fun t =>
          if t = k then
            some { last_seen := now, players := roster.length, uptime := uptime.getD 0,
                   version := if jsTruthy version then version else none }
          else st.serverState t
        livePlayers := fun t => if t = k then roster else st.livePlayers t }
    ({ success := true, error := none }, st')

/-! ## Log read (GET /api/server/logs/:license) -/

structure LogItem where
  id : String
  time : Int
  level : String
  type : String
  title : String
  message : String
  meta : Option String
deriving Repr, DecidableEq

/-- A row of the `server_logs` table as selected by the log read. -/
structure DbLogRow where
  id : Option String
  license_key : String
  level : Option String
  type : Option String
  title : Option String
  message : String
  meta : Option String
  created_at : Int
deriving Repr, DecidableEq

/-- The per-row mapping of the DB read path: `x.id || ("DB-" + x.created_at)`,
`x.level || "info"`, `x.type || "log"`, `x.title || "Server"`, `x.meta ?? null`
(`||` is truthiness-based, `??` is nullish-based). -/
def mapDbRow (x : DbLogRow) : LogItem :=
  { id := jsOrS x.id ("DB-" ++ toString x.created_at)
    time := x.created_at
    level := jsOrS x.level "info"
    type := jsOrS x.type "log"
    title := jsOrS x.title "Server"
    message := x.message
    meta := x.meta }

/-- GET /api/server/logs/:license. `dbTable` is the persistent store's
response for this license, already ordered newest-first (`none` models a
query error, a thrown exception, or a non-array response); `.limit(limit)`
is the store truncating its ordered result. `mem` is `serverLogs[license]`.
`limitReq` is the parsed numeric `limit` query parameter
(`parseInt(req.query.limit || "200", 10)`), capped by `Math.min(_, 500)`. -/
def getLogs (dbTable : Option (List DbLogRow)) (mem : List LogItem)
    (limitReq : Option Nat) : List LogItem :=
  let limit := min (limitReq.getD 200) 500
  match dbTable with
  | some rows => (rows.take limit).map mapDbRow
  | none => mem.take limit

/-! ## Bans and DELETE /api/server/unban/:banId -/

structure Ban where
  ban_id : String
  license_key : String
  player_id : String
  reason : String
  duration : String
  created_at : Int
  expires_at : Option Int
  banned_by : String
  evidence_url : Option String
  identifiers : List String
deriving Repr, DecidableEq

structure Command where
  id : String
  type : String
  payload_ban_id : Option String
  created_at : Int
deriving Repr, DecidableEq

structure BanQueueState where
  bans : List Ban
  queues : String → List Command

/-- The `unban` action the authorized unban route pushes
(`{ id: "ACT-"+Date.now(), type: "unban", payload: { ban_id }, created_at }`). -/
def unbanCommand (banId : String) (now : Int) : Command :=
  { id := "ACT-" ++ toString now, type := "unban", payload_ban_id := some banId,
    created_at := now }

/-- DELETE /api/server/unban/:banId (the authorized path): resolve the bearer
token, load the ban, enforce tenant ownership, soft-lift by setting
`expires_at` to now, and push one `unban` action to the owning tenant's
queue. -/
def liftBan (hash : String → String) (customers : List Customer)
    (admins : List PanelAdmin) (st : BanQueueState) (banId : String)
    (token : Option String) (now : Int) : ApiResult × BanQueueState :=
  match resolvePanelIdentity hash customers admins token with
  | none => ({ success := false, error := some "UNAUTHORIZED" }, st)
  | some identity =>
    match st.bans.find? (fun b => b.ban_id == banId) with
    | none => ({ success := false, error := none }, st)
    | some ban =>
      if ban.license_key ≠ identity.license_key then
        ({ success := false, error := some "FORBIDDEN" }, st)
      else
        let bans' := st.bans.map
          (fun b => if b.ban_id = banId then { b with expires_at := some now } else b)
        let queues' := fun t =>
          if t = ban.license_key then pushAction (st.queues t) (unbanCommand banId now)
          else st.queues t
        ({ success := true, error := none }, { bans := bans', queues := queues' })

/-! ### Queue lemmas -/

theorem pushAll_no_trim {α : Type} (cmds : List α) (q : List α)
    (h : q.length + cmds.length ≤ 200) : pushAll q cmds = q ++ cmds := by
  induction cmds generalizing q with
  | nil => simp [pushAll]
  | cons c cs ih =>
    have hlen : (q ++ [c]).length ≤ 200 := by
      simp only [List.length_append, List.length_cons, List.length_nil]
      simp [List.length_cons] at h
      omega
    have hstep : pushAction q c = q ++ [c] := by
      simp only [pushAction]
      rw [if_neg]
      omega
    have h' : (q ++ [c]).length + cs.length ≤ 200 := by
      simp only [List.length_append, List.length_cons, List.length_nil]
      simp [List.length_cons] at h
      omega
    have hrec := ih (q ++ [c]) h'
    simp only [pushAll, List.foldl_cons, hstep] at hrec ⊢
    rw [hrec, List.append_assoc]
    rfl

theorem drop_append_eq {α : Type} (l₁ l₂ : List α) (n : Nat) (h : n ≤ l₁.length) :
    (l₁ ++ l₂).drop n = l₁.drop n ++ l₂ := by
  rw [List.drop_append_eq_append_drop]
  have : n - l₁.length = 0 := by omega
  rw [this, List.drop_zero]

/-- Pushing a list of 210 commands into an empty queue leaves exactly the last
160 of them (the first 50 are trimmed by the single splice at the 201st push). -/
theorem pushAll_210 {α : Type} (cmds : List α) (h : cmds.length = 210) :
    pushAll ([] : List α) cmds = cmds.drop 50 := by
  have htake : (cmds.take 200).length = 200 := by
    rw [List.length_take]; omega
  have hdrop : (cmds.drop 200).length = 10 := by
    rw [List.length_drop]; omega
  have hsplit : cmds = cmds.take 200 ++ cmds.drop 200 := (List.take_append_drop 200 cmds).symm
  have hlt : 200 < cmds.length := by omega
  have hdropeq : cmds.drop 200 = cmds.get ⟨200, hlt⟩ :: cmds.drop 201 := by
    rw [List.drop_eq_getElem_cons hlt]
    simp
  have h1 : pushAll ([] : List α) (cmds.take 200) = cmds.take 200 := by
    have := pushAll_no_trim (cmds.take 200) ([] : List α) (by simp [htake])
    simpa using this
  have hfold : pushAll ([] : List α) cmds
      = pushAll (pushAll ([] : List α) (cmds.take 200)) (cmds.drop 200) := by
    simp only [pushAll]
    conv_rhs => rw [← List.foldl_append, List.take_append_drop]
  rw [hfold, h1, hdropeq]
  have hstep : pushAction (cmds.take 200) (cmds.get ⟨200, hlt⟩)
      = (cmds.take 200 ++ [cmds.get ⟨200, hlt⟩]).drop 50 := by
    simp only [pushAction]
    rw [if_pos (by simp [htake]; omega)]
  have htake201 : cmds.take 200 ++ [cmds.get ⟨200, hlt⟩] = cmds.take 201 := by
    conv_rhs => rw [List.take_succ]
    rw [List.getElem?_eq_getElem hlt]
    rfl
  have hlen151 : ((cmds.take 201).drop 50).length = 151 := by
    rw [List.length_drop, List.length_take]; omega
  have hrest : pushAll ((cmds.take 201).drop 50) (cmds.drop 201) =
      (cmds.take 201).drop 50 ++ cmds.drop 201 := by
    apply pushAll_no_trim
    rw [hlen151, List.length_drop]; omega
  simp only [pushAll, List.foldl_cons] at hrest ⊢
  rw [hstep, htake201, hrest]
  have : (cmds.take 201).drop 50 ++ cmds.drop 201 = (cmds.take 201 ++ cmds.drop 201).drop 50 := by
    rw [drop_append_eq]
    rw [List.length_take]; omega
  rw [this, List.take_append_drop]

/-! ### Ring-buffer lemmas -/

theorem ingestAll_no_trunc {α : Type} (items : List α) (buf : List α)
    (h : buf.length + items.length ≤ 300) :
    ingestAll buf items = items.reverse ++ buf := by
  induction items generalizing buf with
  | nil => simp [ingestAll]
  | cons i rest ih =>
    have hstep : pushServerLog buf i = i :: buf := by
      simp only [pushServerLog]
      rw [if_neg]
      simp only [List.length_cons]
      simp [List.length_cons] at h
      omega
    have h' : (i :: buf).length + rest.length ≤ 300 := by
      simp only [List.length_cons]
      simp [List.length_cons] at h
      omega
    have hrec := ih (i :: buf) h'
    simp only [ingestAll, List.foldl_cons, hstep] at hrec ⊢
    rw [hrec, List.reverse_cons, List.append_assoc]
    rfl

theorem take_append_take {α : Type} (a l : List α) (n : Nat) :
    (a ++ l.take n).take n = (a ++ l).take n := by
  rw [List.take_append_eq_append_take, List.take_append_eq_append_take, List.take_take]
  have hmin : min (n - a.length) n = n - a.length := Nat.min_eq_left (by omega)
  rw [hmin]

theorem ingestAll_full {α : Type} (items : List α) (buf : List α)
    (h : buf.length = 300) :
    ingestAll buf items = (items.reverse ++ buf).take 300 := by
  induction items generalizing buf with
  | nil =>
    simp only [ingestAll, List.foldl_nil, List.reverse_nil, List.nil_append]
    rw [List.take_of_length_le (by omega)]
  | cons i rest ih =>
    have hstep : pushServerLog buf i = (i :: buf).take 300 := by
      simp only [pushServerLog]
      rw [if_pos]
      simp [List.length_cons, h]
    have hlen : ((i :: buf).take 300).length = 300 := by
      rw [List.length_take, List.length_cons, h]
      omega
    have hrec := ih ((i :: buf).take 300) hlen
    simp only [ingestAll, List.foldl_cons, hstep] at hrec ⊢
    rw [hrec, take_append_take, List.reverse_cons, List.append_assoc]
    rfl

theorem ingestAll_310 {α : Type} (items : List α) (h : items.length = 310) :
    ingestAll ([] : List α) items = (items.drop 10).reverse := by
  have htake : (items.take 300).length = 300 := by
    rw [List.length_take]; omega
  have hfold : ingestAll ([] : List α) items
      = ingestAll (ingestAll ([] : List α) (items.take 300)) (items.drop 300) := by
    simp only [ingestAll]
    conv_rhs => rw [← List.foldl_append, List.take_append_drop]
  have h1 : ingestAll ([] : List α) (items.take 300) = (items.take 300).reverse := by
    have := ingestAll_no_trunc (items.take 300) ([] : List α) (by simp [htake])
    simpa using this
  rw [hfold, h1]
  have h2 := ingestAll_full (items.drop 300) ((items.take 300).reverse)
    (by rw [List.length_reverse, htake])
  rw [h2, ← List.reverse_append, List.take_append_drop]
  rw [List.reverse_drop]
  congr 1
  omega

/-! ## Claim theorems -/

/-- Claim C2: for every tenant, pushing 210 commands and then draining yields
exactly 160 commands (the 200-to-150 batched trim of the 50 oldest fires
exactly once, at the 201st push) in the original relative order of the
retained subset; every drain returns the full current queue and leaves it
empty; and a command pushed immediately after a drain appears only in the
next drain. -/
theorem claim_C2_queue {α : Type} (cmds : List α) (h : cmds.length = 210)
    (qs : String → List α) (k : String) (c : α) :
    pushAll ([] : List α) cmds = cmds.drop 50
    ∧ (pushAll ([] : List α) cmds).length = 160
    ∧ (pushAll ([] : List α) cmds).Sublist cmds
    ∧ (∀ queues : String → List α, ∀ t,
        (drainActions queues t).1 = queues t ∧ (drainActions queues t).2 t = [])
    ∧ (drainActions (fun t => if t = k then pushAction ((drainActions qs k).2 k) c
          else (drainActions qs k).2 t) k).1 = [c] := by
  refine ⟨pushAll_210 cmds h, ?_, ?_, ?_, ?_⟩
  · rw [pushAll_210 cmds h, List.length_drop]
    omega
  · rw [pushAll_210 cmds h]
    exact List.drop_sublist 50 cmds
  · intro queues t
    exact ⟨rfl, by simp [drainActions]⟩
  · simp [drainActions, pushAction]

/-- Witness for claim C2 at a concrete 210-command sequence. -/
theorem claim_C2_queue_witness :
    pushAll ([] : List Nat) (List.range 210) = (List.range 210).drop 50 :=
  (claim_C2_queue (List.range 210) (by simp) (fun _ => []) "T" 7).1

/-- Claim C8: for every tenant, ingesting 310 log events leaves the in-memory
buffer with exactly 300 entries ordered newest-first, with precisely the
oldest 10 of the 310 absent; the buffer never exceeds 300 entries, and a push
onto a full buffer drops exactly one oldest (tail) entry as the new one is
prepended. -/
theorem claim_C8_ring_buffer {α : Type} (items : List α) (h : items.length = 310) :
    ingestAll ([] : List α) items = (items.drop 10).reverse
    ∧ (ingestAll ([] : List α) items).length = 300
    ∧ (∀ (buf : List α) (x : α), buf.length ≤ 300 → (pushServerLog buf x).length ≤ 300)
    ∧ (∀ (buf : List α) (x : α), buf.length = 300 →
        pushServerLog buf x = (x :: buf).take 300
        ∧ (pushServerLog buf x).length = 300) := by
  refine ⟨ingestAll_310 items h, ?_, ?_, ?_⟩
  · rw [ingestAll_310 items h, List.length_reverse, List.length_drop]
    omega
  · intro buf x hb
    simp only [pushServerLog]
    split
    · simp only [List.length_take, List.length_cons]
      omega
    · simp only [List.length_cons] at *
      omega
  · intro buf x hb
    have hcond : (x :: buf).length > 300 := by simp [List.length_cons, hb]
    constructor
    · simp only [pushServerLog]
      rw [if_pos hcond]
    · simp only [pushServerLog]
      rw [if_pos hcond, List.length_take, List.length_cons, hb]
      omega

/-- Witness for claim C8 at a concrete 310-event sequence. -/
theorem claim_C8_ring_buffer_witness :
    ingestAll ([] : List Nat) (List.range 310) = ((List.range 310).drop 10).reverse :=
  (claim_C8_ring_buffer (List.range 310) (by simp)).1

/-- Claim C9: a heartbeat that includes a (truthy) license_key but whose
`players` value is not an array replaces the tenant's roster by the empty
sequence, stores a liveness record with player_count 0, and still returns
success. -/
theorem claim_C9_heartbeat (st : LiveState) (now : Int) (lk : Option String)
    (players : JsVal) (version : Option String) (uptime : Option Int)
    (hk : jsTruthy lk = true) (hp : ∀ xs, players ≠ JsVal.arr xs) :
    (heartbeat st now lk players version uptime).1 = { success := true, error := none }
    ∧ (heartbeat st now lk players version uptime).2.livePlayers (lk.getD "") = []
    ∧ (heartbeat st now lk players version uptime).2.serverState (lk.getD "")
        = some { last_seen := now, players := 0, uptime := uptime.getD 0,
                 version := if jsTruthy version then version else none } := by
  have hroster : (match players with | JsVal.arr xs => xs | _ => ([] : List Player)) = [] := by
    cases players with
    | arr xs => exact absurd rfl (hp xs)
    | nullv => rfl
    | str s => rfl
    | num n => rfl
    | boolv b => rfl
    | obj => rfl
  refine ⟨?_, ?_, ?_⟩ <;> simp [heartbeat, hk, hroster]

/-- Witness for claim C9: a heartbeat whose `players` field is the string
`"nope"` on an empty live state. -/
theorem claim_C9_heartbeat_witness :
    (heartbeat { serverState := fun _ => none, livePlayers := fun _ => [] } 5
        (some "L") (JsVal.str "nope") none (some 60)).2.livePlayers "L" = [] :=
  (claim_C9_heartbeat { serverState := fun _ => none, livePlayers := fun _ => [] } 5
    (some "L") (JsVal.str "nope") none (some 60) (by decide)
    (fun xs => by simp)).2.1

/-- Claim C10: a lift request whose token resolves to an identity but whose
ban_id matches no ban record returns plain failure (no error code), updates
no ban's expires_at and enqueues nothing: the state is returned unchanged. -/
theorem claim_C10_lift_no_ban (hash : String → String) (customers : List Customer)
    (admins : List PanelAdmin) (st : BanQueueState) (banId : String)
    (token : Option String) (now : Int) (idty : Identity)
    (hres : resolvePanelIdentity hash customers admins token = some idty)
    (hban : ∀ b ∈ st.bans, b.ban_id ≠ banId) :
    liftBan hash customers admins st banId token now
      = ({ success := false, error := none }, st) := by
  have hfind : st.bans.find? (fun b => b.ban_id == banId) = none := by
    rw [List.find?_eq_none]
    intro b hb
    simpa using hban b hb
  simp [liftBan, hres, hfind]

/-- Witness for claim C10: a resolved customer token and an empty ban table. -/
theorem claim_C10_lift_no_ban_witness :
    liftBan (fun s => s ++ "#") [{ id := "tok", username := "u", password := "p", license_key := "L" }] [] { bans := [], queues := fun _ => [] } "B1" (some "tok") 99
      = ({ success := false, error := none }, { bans := [], queues := fun _ => [] }) :=
  claim_C10_lift_no_ban (fun s => s ++ "#")
    [{ id := "tok", username := "u", password := "p", license_key := "L" }] []
    { bans := [], queues := fun _ => [] } "B1" (some "tok") 99
    { kind := "customer", license_key := "L" } (by rfl) (by simp)

/-- Claim C7: for every log read, a successful persistent-store read returning
a list (even an empty one) is authoritative and is returned mapped into the
common Log Event shape, with defaults for missing level/type/title; the
in-memory buffer is returned only when the persistent read fails; and the
requested limit is capped at 500. -/
theorem claim_C7_logs_read (dbTable : Option (List DbLogRow)) (mem : List LogItem)
    (limitReq : Option Nat) :
    (∀ rows, dbTable = some rows →
        getLogs dbTable mem limitReq = (rows.take (min (limitReq.getD 200) 500)).map mapDbRow)
    ∧ (dbTable = none → getLogs dbTable mem limitReq = mem.take (min (limitReq.getD 200) 500))
    ∧ getLogs (some []) mem limitReq = []
    ∧ min (limitReq.getD 200) 500 ≤ 500
    ∧ (∀ x : DbLogRow, x.level = none → (mapDbRow x).level = "info")
    ∧ (∀ x : DbLogRow, x.type = none → (mapDbRow x).type = "log")
    ∧ (∀ x : DbLogRow, x.title = none → (mapDbRow x).title = "Server") := by
  refine ⟨?_, ?_, ?_, ?_, ?_, ?_, ?_⟩
  · intro rows hrows
    rw [hrows]
    rfl
  · intro hnone
    rw [hnone]
    rfl
  · simp [getLogs]
  · exact Nat.min_le_right _ _
  · intro x hx
    simp [mapDbRow, hx, jsOrS]
  · intro x hx
    simp [mapDbRow, hx, jsOrS]
  · intro x hx
    simp [mapDbRow, hx, jsOrS]

/-- Witness for claim C7: a one-row store response with missing level/type/title
and an over-large requested limit of 600. -/
theorem claim_C7_logs_read_witness :
    getLogs (some [{ id := none, license_key := "L", level := none, type := none, title := none, message := "m", meta := none, created_at := 3 }]) [] (some 600)
      = ([({ id := none, license_key := "L", level := none, type := none, title := none, message := "m", meta := none, created_at := 3 } : DbLogRow)].take (min ((some 600).getD 200) 500)).map mapDbRow :=
  (claim_C7_logs_read
    (some [{ id := none, license_key := "L", level := none, type := none, title := none, message := "m", meta := none, created_at := 3 }])
    [] (some 600)).1 _ rfl

/-- Claim C4: identity resolution follows the fixed order: a missing/empty
token yields None without any store query (the result is None for all
stores); else a token equal to a stored owner-record id yields the customer
identity bound to that record's license_key; else a token whose digest
matches a stored admin record with active true yields the admin identity;
a token matching only inactive admin records yields None. -/
theorem claim_C4_resolve (hash : String → String) (customers : List Customer)
    (admins : List PanelAdmin) (t : String) (ht : t ≠ "") :
    resolvePanelIdentity hash customers admins none = none
    ∧ resolvePanelIdentity hash customers admins (some "") = none
    ∧ (∀ c, customers.find? (fun x => x.id == t) = some c →
        resolvePanelIdentity hash customers admins (some t)
          = some { kind := "customer", license_key := c.license_key })
    ∧ (∀ a, customers.find? (fun x => x.id == t) = none →
        admins.find? (fun x => x.token_hash == hash t && x.active) = some a →
        resolvePanelIdentity hash customers admins (some t)
          = some { kind := "admin", license_key := a.license_key })
    ∧ (customers.find? (fun x => x.id == t) = none →
        (∀ a ∈ admins, a.token_hash = hash t → a.active = false) →
        resolvePanelIdentity hash customers admins (some t) = none) := by
  have htruthy : jsTruthy (some t) = true := by
    simp [jsTruthy, ht]
  refine ⟨rfl, rfl, ?_, ?_, ?_⟩
  · intro c hc
    simp [resolvePanelIdentity, htruthy, hc]
  · intro a hcnone ha
    simp [resolvePanelIdentity, htruthy, hcnone, ha]
  · intro hcnone hinactive
    have hanone : admins.find? (fun x => x.token_hash == hash t && x.active) = none := by
      rw [List.find?_eq_none]
      intro a hmem
      simp only [Bool.and_eq_true, beq_iff_eq, not_and]
      intro hh
      simp [hinactive a hmem hh]
    simp [resolvePanelIdentity, htruthy, hcnone, hanone]

/-- Witness for claim C4: a store with one owner record and one inactive
admin record whose digest matches the token. -/
theorem claim_C4_resolve_witness :
    resolvePanelIdentity (fun s => s ++ "#") [{ id := "tok", username := "u", password := "p", license_key := "LK" }] [] (some "tok")
      = some { kind := "customer", license_key := "LK" } :=
  (claim_C4_resolve (fun s => s ++ "#")
    [{ id := "tok", username := "u", password := "p", license_key := "LK" }] []
    "tok" (by decide)).2.2.1
    { id := "tok", username := "u", password := "p", license_key := "LK" } (by rfl)

/-- Claim C3: for every lift request on the authorized path: an unresolvable
token yields UNAUTHORIZED and no state change; a resolved token with a ban
owned by a different license_key yields FORBIDDEN and changes nothing; a
matching license_key sets the ban's expires_at to now (record retained) and
enqueues exactly one `unban` command for that ban's tenant, leaving every
other tenant's queue untouched. -/
theorem claim_C3_lift (hash : String → String) (customers : List Customer)
    (admins : List PanelAdmin) (st : BanQueueState) (banId : String)
    (token : Option String) (now : Int) :
    (resolvePanelIdentity hash customers admins token = none →
      liftBan hash customers admins st banId token now
        = ({ success := false, error := some "UNAUTHORIZED" }, st))
    ∧ (∀ idty ban, resolvePanelIdentity hash customers admins token = some idty →
        st.bans.find? (fun b => b.ban_id == banId) = some ban →
        ban.license_key ≠ idty.license_key →
        liftBan hash customers admins st banId token now
          = ({ success := false, error := some "FORBIDDEN" }, st))
    ∧ (∀ idty ban, resolvePanelIdentity hash customers admins token = some idty →
        st.bans.find? (fun b => b.ban_id == banId) = some ban →
        ban.license_key = idty.license_key →
        (liftBan hash customers admins st banId token now).1
            = { success := true, error := none }
        ∧ (liftBan hash customers admins st banId token now).2.bans
            = st.bans.map (fun b => if b.ban_id = banId
                then { b with expires_at := some now } else b)
        ∧ (liftBan hash customers admins st banId token now).2.queues ban.license_key
            = pushAction (st.queues ban.license_key) (unbanCommand banId now)
        ∧ (unbanCommand banId now).type = "unban"
        ∧ ((st.queues ban.license_key).length ≤ 199 →
            (liftBan hash customers admins st banId token now).2.queues ban.license_key
              = st.queues ban.license_key ++ [unbanCommand banId now])
        ∧ (∀ t, t ≠ ban.license_key →
            (liftBan hash customers admins st banId token now).2.queues t
              = st.queues t)) := by
  refine ⟨?_, ?_, ?_⟩
  · intro hres
    simp [liftBan, hres]
  · intro idty ban hres hban hne
    simp [liftBan, hres, hban, hne]
  · intro idty ban hres hban heq
    refine ⟨?_, ?_, ?_, rfl, ?_, ?_⟩
    · simp [liftBan, hres, hban, heq]
    · simp [liftBan, hres, hban, heq]
    · simp [liftBan, hres, hban, heq]
    · intro hlen
      have hq : (liftBan hash customers admins st banId token now).2.queues ban.license_key
          = pushAction (st.queues ban.license_key) (unbanCommand banId now) := by
        simp [liftBan, hres, hban, heq]
      rw [hq]
      simp only [pushAction]
      rw [if_neg]
      simp only [List.length_append, List.length_cons, List.length_nil]
      omega
    · intro t hneq
      have hneq2 : t ≠ idty.license_key := by
        rw [← heq]
        exact hneq
      simp [liftBan, hres, hban, heq, hneq2]

/-- Witness for claim C3 on a one-ban, one-customer store where the
requester owns the ban. -/
theorem claim_C3_lift_witness :
    (liftBan (fun s => s ++ "#") [{ id := "tok", username := "u", password := "p", license_key := "L" }] [] { bans := [{ ban_id := "B1", license_key := "L", player_id := "pl", reason := "r", duration := "P", created_at := 0, expires_at := none, banned_by := "GhostGuard", evidence_url := none, identifiers := [] }], queues := fun _ => [] } "B1" (some "tok") 42).1
      = { success := true, error := none } :=
  ((claim_C3_lift (fun s => s ++ "#")
    [{ id := "tok", username := "u", password := "p", license_key := "L" }] []
    { bans := [{ ban_id := "B1", license_key := "L", player_id := "pl", reason := "r", duration := "P", created_at := 0, expires_at := none, banned_by := "GhostGuard", evidence_url := none, identifiers := [] }], queues := fun _ => [] }
    "B1" (some "tok") 42).2.2
    { kind := "customer", license_key := "L" }
    { ban_id := "B1", license_key := "L", player_id := "pl", reason := "r", duration := "P", created_at := 0, expires_at := none, banned_by := "GhostGuard", evidence_url := none, identifiers := [] }
    (by rfl) (by rfl) (by rfl)).1

/-- Claim C6 counterexample: an explicit expires_at does not always override
the duration. The explicit expiry value 0 (the epoch timestamp, a falsy JS
number) is ignored by `if (explicitExpiresAt)` and duration "2h" wins: the
result is now+2h (7201000 for now = 1000), not the explicit 0. -/
theorem claim_C6_counterexample :
    computeExpiresAt (some "2h") (some 0) 1000 = some 7201000
    ∧ computeExpiresAt (some "2h") (some 0) 1000 ≠ some 0 := by
  exact ⟨rfl, by decide⟩

/-- Claim C6 (amended): with no explicit expires_at, duration "2h" yields
expires_at = now + 2h exactly; "P", "perm", "permanent" (case-insensitive)
and any malformed string such as "garbage" yield null, silently; an explicit
*truthy* expires_at overrides the duration, but an explicit falsy expires_at
(the number 0) falls through to duration parsing instead of overriding. -/
theorem claim_C6_amended (now : Int) (duration : Option String) (e : Int)
    (he : e ≠ 0) :
    computeExpiresAt (some "2h") none now = some (now + 7200000)
    ∧ computeExpiresAt (some "P") none now = none
    ∧ computeExpiresAt (some "perm") none now = none
    ∧ computeExpiresAt (some "PERMANENT") none now = none
    ∧ computeExpiresAt (some "Permanent") none now = none
    ∧ computeExpiresAt (some "garbage") none now = none
    ∧ computeExpiresAt duration (some e) now = some e
    ∧ computeExpiresAt duration (some 0) now = durationExpiry duration now := by
  refine ⟨rfl, rfl, rfl, rfl, rfl, rfl, ?_, ?_⟩
  · simp [computeExpiresAt, he]
  · simp [computeExpiresAt]

/-- Witness for claim C6 (amended): a truthy explicit expiry overrides the
duration at a concrete input. -/
theorem claim_C6_amended_witness :
    computeExpiresAt (some "1m") (some 5) 1000 = some 5 :=
  (claim_C6_amended 1000 (some "1m") 5 (by decide)).2.2.2.2.2.2.1

theorem getD_mem_or_eq {α : Type} : ∀ (l : List α) (i : Nat) (d : α),
    l.getD i d ∈ l ∨ l.getD i d = d
  | [], _, d => Or.inr (by simp [List.getD])
  | a :: _, 0, _ => Or.inl (by simp)
  | a :: l, i + 1, d => by
    rw [List.getD_cons_succ]
    rcases getD_mem_or_eq l i d with h | h
    · exact Or.inl (List.mem_cons_of_mem a h)
    · exact Or.inr h

theorem hexDigitUpper_mem (n : Nat) : hexDigitUpper n ∈ hexDigitsUpper := by
  rcases getD_mem_or_eq hexDigitsUpper (n % 16) '0' with h | h
  · exact h
  · unfold hexDigitUpper
    rw [h]
    decide

theorem toHex4_chars (b : Nat) : ∀ c ∈ (toHex4 b).data, c ∈ hexDigitsUpper := by
  intro c hc
  have hc' : c ∈ [hexDigitUpper (b / 4096), hexDigitUpper (b / 256), hexDigitUpper (b / 16),
      hexDigitUpper b] := hc
  simp only [List.mem_cons, List.not_mem_nil, or_false] at hc'
  rcases hc' with h | h | h | h <;> (rw [h]; exact hexDigitUpper_mem _)

/-- Claim C5 counterexample: each random group of a generated license key is
derived from just two random bytes (`crypto.randomBytes(2)`), so at most
2^16 distinct group values exist — fewer than the 2^32 required for at least
32 bits of entropy per group. -/
theorem claim_C5_counterexample :
    ((Finset.univ : Finset (Fin 65536)).image (fun b => toHex4 b.val)).card < 2 ^ 32 := by
  have h : ((Finset.univ : Finset (Fin 65536)).image (fun b => toHex4 b.val)).card
      ≤ (Finset.univ : Finset (Fin 65536)).card := Finset.card_image_le
  have h2 : (Finset.univ : Finset (Fin 65536)).card = 65536 := by
    rw [Finset.card_univ, Fintype.card_fin]
  rw [h2] at h
  exact lt_of_le_of_lt h (by norm_num)

/-- Claim C5 (amended): every generated key is the fixed prefix "GG-" plus two
groups of four uppercase hexadecimal digits, but each group is drawn from two
random bytes and so carries at most 16 bits of entropy (at most 2^16 possible
values), not ≥ 32 bits; the license is stored ACTIVE with hwid null, and
expires_at is null when days_valid ≤ 0 and now plus days_valid days
otherwise. -/
theorem claim_C5_amended (now days : Int) (b1 b2 : Nat)
    (h1 : b1 < 65536) (h2 : b2 < 65536) :
    (createLicense now days b1 b2).license_key = "GG-" ++ toHex4 b1 ++ "-" ++ toHex4 b2
    ∧ (toHex4 b1).length = 4 ∧ (toHex4 b2).length = 4
    ∧ (∀ c ∈ (toHex4 b1).data, c ∈ hexDigitsUpper)
    ∧ (∀ c ∈ (toHex4 b2).data, c ∈ hexDigitsUpper)
    ∧ toHex4 b1 ∈ (Finset.univ : Finset (Fin 65536)).image (fun b => toHex4 b.val)
    ∧ toHex4 b2 ∈ (Finset.univ : Finset (Fin 65536)).image (fun b => toHex4 b.val)
    ∧ ((Finset.univ : Finset (Fin 65536)).image (fun b => toHex4 b.val)).card ≤ 2 ^ 16
    ∧ (createLicense now days b1 b2).status = "ACTIVE"
    ∧ (createLicense now days b1 b2).hwid = none
    ∧ (days ≤ 0 → (createLicense now days b1 b2).expires_at = none)
    ∧ (0 < days → (createLicense now days b1 b2).expires_at
        = some (now + days * 86400000)) := by
  refine ⟨rfl, rfl, rfl, toHex4_chars b1, toHex4_chars b2, ?_, ?_, ?_, rfl, rfl, ?_, ?_⟩
  · exact Finset.mem_image.mpr ⟨⟨b1, h1⟩, Finset.mem_univ _, rfl⟩
  · exact Finset.mem_image.mpr ⟨⟨b2, h2⟩, Finset.mem_univ _, rfl⟩
  · have h : ((Finset.univ : Finset (Fin 65536)).image (fun b => toHex4 b.val)).card
        ≤ (Finset.univ : Finset (Fin 65536)).card := Finset.card_image_le
    have h2 : (Finset.univ : Finset (Fin 65536)).card = 65536 := by
      rw [Finset.card_univ, Fintype.card_fin]
    rw [h2] at h
    exact le_trans h (by norm_num)
  · intro hd
    simp only [createLicense]
    rw [if_neg (by omega)]
  · intro hd
    simp only [createLicense]
    rw [if_pos (by omega)]

/-- Witness for claim C5 (amended) at concrete random bytes. -/
theorem claim_C5_amended_witness :
    (createLicense 0 30 0 65535).license_key = "GG-" ++ toHex4 0 ++ "-" ++ toHex4 65535 :=
  (claim_C5_amended 0 30 0 65535 (by decide) (by decide)).1

theorem find?_map_eq {α : Type} (p : α → Bool) (f : α → α) (l : List α)
    (hp : ∀ x, p (f x) = p x) : (l.map f).find? p = (l.find? p).map f := by
  induction l with
  | nil => rfl
  | cons a l ih =>
    cases hpa : p a with
    | true =>
      have h1 : (f a :: l.map f).find? p = some (f a) :=
        List.find?_cons_of_pos _ (by rw [hp]; exact hpa)
      have h2 : (a :: l).find? p = some a := List.find?_cons_of_pos _ hpa
      rw [List.map_cons, h1, h2]
      rfl
    | false =>
      have h1 : (f a :: l.map f).find? p = (l.map f).find? p :=
        List.find?_cons_of_neg _ (by rw [hp, hpa]; simp)
      have h2 : (a :: l).find? p = l.find? p :=
        List.find?_cons_of_neg _ (by rw [hpa]; simp)
      rw [List.map_cons, h1, h2, ih]

/-- Claim C1 counterexample: a license whose hwid is bound ("A") verified
with *no* hwid presented is reported valid, contradicting "a license with a
bound hwid and no hwid presented must not be reported valid". -/
theorem claim_C1_counterexample :
    (verify [{ id := 1, license_key := "L", status := "ACTIVE", expires_at := none, hwid := some "A", last_seen := none }] 0 (some "L") none).1.valid = true
    ∧ jsTruthy (some "A") = true ∧ jsTruthy (none : Option String) = false := by
  exact ⟨rfl, rfl, rfl⟩

/-- Claim C1 (amended): for an ACTIVE, non-expired license with no bound
hwid, a verify call presenting a (truthy) hwid binds that hwid to the stored
record, and any later verify call on that record presenting a different
truthy hwid returns invalid with reason HWID_MISMATCH; verify returns valid
only if the stored hwid is not truthy (null), or no truthy hwid is
presented, or the bound hwid equals the presented one — in particular a
bound license verified with no hwid presented is reported valid, the sole
weakening the code forces on the original claim. -/
theorem claim_C1_amended (st : List License) (now now2 : Int) (k h h2 : String)
    (lic : License)
    (hfind : findLicense st k = some lic)
    (hactive : lic.status = "ACTIVE")
    (hexp : expiredAt lic.expires_at now = false)
    (hexp2 : expiredAt lic.expires_at now2 = false)
    (hunbound : lic.hwid = none)
    (hk : k ≠ "") (hh : h ≠ "") (hh2 : h2 ≠ "") (hne : h2 ≠ h) :
    ((verify st now (some k) (some h)).1 = { valid := true, reason := none }
      ∧ findLicense (verify st now (some k) (some h)).2 k
          = some { lic with hwid := some h, last_seen := some now })
    ∧ (∀ st2 lic2, findLicense st2 k = some lic2 → lic2.status = "ACTIVE" →
        expiredAt lic2.expires_at now2 = false → lic2.hwid = some h →
        verify st2 now2 (some k) (some h2)
          = ({ valid := false, reason := some "HWID_MISMATCH" }, st2))
    ∧ (verify (verify st now (some k) (some h)).2 now2 (some k) (some h2)).1
        = { valid := false, reason := some "HWID_MISMATCH" }
    ∧ (∀ (st3 : List License) (n : Int) (lk hw : Option String),
        (verify st3 n lk hw).1.valid = true →
        ∃ l, findLicense st3 (lk.getD "") = some l
          ∧ (jsTruthy l.hwid = false ∨ jsTruthy hw = false ∨ l.hwid = hw)) := by
  have hkt : jsTruthy (some k) = true := by simp [jsTruthy, hk]
  have hht : jsTruthy (some h) = true := by simp [jsTruthy, hh]
  have hh2t : jsTruthy (some h2) = true := by simp [jsTruthy, hh2]
  have hne2 : h ≠ h2 := Ne.symm hne
  have hjn : jsTruthy (none : Option String) = false := rfl
  have hv1 : verify st now (some k) (some h)
      = ({ valid := true, reason := none }, touchLastSeen (bindHwid st lic.id h) lic.id now) := by
    simp [verify, hkt, hfind, hactive, hexp, hunbound, hht, hjn]
  have hb1 : findLicense (bindHwid st lic.id h) k = some { lic with hwid := some h } := by
    unfold findLicense bindHwid
    rw [find?_map_eq]
    · unfold findLicense at hfind
      rw [hfind]
      simp
    · intro x
      by_cases hx : x.id = lic.id <;> simp [hx]
  have hfind2 : findLicense (touchLastSeen (bindHwid st lic.id h) lic.id now) k
      = some { lic with hwid := some h, last_seen := some now } := by
    unfold findLicense touchLastSeen
    rw [find?_map_eq]
    · unfold findLicense at hb1
      rw [hb1]
      simp
    · intro x
      by_cases hx : x.id = lic.id <;> simp [hx]
  have hbgen : ∀ st2 lic2, findLicense st2 k = some lic2 → lic2.status = "ACTIVE" →
      expiredAt lic2.expires_at now2 = false → lic2.hwid = some h →
      verify st2 now2 (some k) (some h2)
        = ({ valid := false, reason := some "HWID_MISMATCH" }, st2) := by
    intro st2 lic2 hf2 ha2 he2 hb2
    simp [verify, hkt, hf2, ha2, he2, hb2, jsTruthy, hk, hh, hh2, hne2]
  refine ⟨⟨?_, ?_⟩, hbgen, ?_, ?_⟩
  · simp [hv1]
  · simp only [hv1]
    exact hfind2
  · have hcomp := hbgen (touchLastSeen (bindHwid st lic.id h) lic.id now)
      { lic with hwid := some h, last_seen := some now } hfind2 hactive hexp2 rfl
    simp only [hv1]
    rw [hcomp]
  · intro st3 n lk hw hvalid
    by_cases hk3 : jsTruthy lk = false
    · simp [verify, hk3] at hvalid
    · have hk3' : jsTruthy lk = true := by
        revert hk3
        cases jsTruthy lk <;> simp
      cases hfl : findLicense st3 (lk.getD "") with
      | none => simp [verify, hk3', hfl] at hvalid
      | some l =>
        refine ⟨l, rfl, ?_⟩
        by_cases hs : l.status = "ACTIVE"
        case neg => simp [verify, hk3', hfl, hs] at hvalid
        case pos =>
        by_cases he : expiredAt l.expires_at n = true
        · simp [verify, hk3', hfl, hs, he] at hvalid
        · have he' : expiredAt l.expires_at n = false := by
            revert he
            cases expiredAt l.expires_at n <;> simp
          by_cases hb : jsTruthy l.hwid = true
          · by_cases hwt : jsTruthy hw = true
            · by_cases hweq : l.hwid = hw
              · exact Or.inr (Or.inr hweq)
              · simp [verify, hk3', hfl, hs, he', hb, hwt, hweq] at hvalid
            · refine Or.inr (Or.inl ?_)
              revert hwt
              cases jsTruthy hw <;> simp
          · refine Or.inl ?_
            revert hb
            cases jsTruthy l.hwid <;> simp

/-- Witness for claim C1 (amended): a one-license store, binding "H1" on the
first verify and rejecting "H2" on the second. -/
theorem claim_C1_amended_witness :
    (verify [{ id := 1, license_key := "L", status := "ACTIVE", expires_at := none, hwid := none, last_seen := none }] 10 (some "L") (some "H1")).1
      = { valid := true, reason := none } :=
  (claim_C1_amended [{ id := 1, license_key := "L", status := "ACTIVE", expires_at := none, hwid := none, last_seen := none }] 10 20 "L" "H1" "H2"
    { id := 1, license_key := "L", status := "ACTIVE", expires_at := none, hwid := none, last_seen := none }
    (by rfl) (by rfl) (by rfl) (by rfl) (by rfl)
    (by decide) (by decide) (by decide) (by decide)).1.1

end GhostGuard
